import Mathlib

/-!
Verification of the catalog-management dashboard's reconciliation core.

The definitions below are a shallow embedding of the code in
`src/pages/1_🗂️_Catalog_Manager.py` (the "Save Direct Edits" diff/save
handler, bulk actions and the guarded-deletion flow) and
`src/connectors/baserow_connector.py` (paginated fetch and batched delete).

Cell values are modelled by `Value`; `Value.na` stands for pandas NaN /
Python None.  A `DataFrame` models a pandas frame after `set_index('id')`:
a list of column labels plus rows that pair the integer id index with the
cell values, positionally aligned with the column labels.  Row order is
kept, exactly as pandas keeps it.
-/

set_option autoImplicit false
set_option maxRecDepth 8192

inductive Value where
  | na   : Value
  | bool : Bool → Value
  | int  : Int → Value
  | str  : String → Value
deriving DecidableEq, Repr

def Value.isNa : Value → Bool
  | .na => true
  | _ => false

/-- Python's `int(x)` coercion on a cell value: succeeds on ints and bools,
parses integer strings, raises (here: `none`) on NaN/None and
non-numeric strings. -/
def pyInt : Value → Option Int
  | .int n => some n
  | .bool b => some (if b then 1 else 0)
  | .str s => s.toInt?
  | .na => none

structure DataFrame where
  cols : List String
  rows : List (Int × List Value)
deriving DecidableEq, Repr

/-- Cell inequality as used by `pandas.DataFrame.compare`:
`~((self == other) | (self.isna() & other.isna()))`. -/
def cellNe (a b : Value) : Bool :=
  !(a == b) && !(a.isNa && b.isNa)

/-- Does a pair of aligned rows differ in any of the first `n` columns? -/
def rowNe (n : Nat) (r1 r2 : Int × List Value) : Bool :=
  (List.range n).any (fun j => cellNe (r1.2.getD j Value.na) (r2.2.getD j Value.na))

/-- Column positions kept by `compare` (`keep_shape=False`): those where at
least one row pair differs. -/
def diffColIdxs (df other : DataFrame) : List Nat :=
  (List.range df.cols.length).filter
    (fun j => (df.rows.zip other.rows).any
      (fun pr => cellNe (pr.1.2.getD j Value.na) (pr.2.2.getD j Value.na)))

/-- One kept cell of the `compare` result: the pair `(self, other)` when the
cells differ, and the NaN placeholder pair when they are equal (pandas puts
NaN at equal positions of kept rows/columns). -/
def diffCell (cols : List String) (j : Nat) (pr : (Int × List Value) × (Int × List Value)) :
    String × Value × Value :=
  let a := pr.1.2.getD j Value.na
  let b := pr.2.2.getD j Value.na
  (cols.getD j "", if cellNe a b then (a, b) else (Value.na, Value.na))

/-- One kept row of the `compare` result: present iff some column differs for
this row pair; it records, for every kept column, the `(self, other)` values. -/
def diffEntry (n : Nat) (cols : List String) (djs : List Nat)
    (pr : (Int × List Value) × (Int × List Value)) :
    Option (Int × List (String × Value × Value)) :=
  if rowNe n pr.1 pr.2 then some (pr.1.1, djs.map (fun j => diffCell cols j pr)) else none

/-- `pandas.DataFrame.compare`: raises unless the two frames carry identical
labels (same columns in the same order, same index in the same order), then
returns the rows having at least one differing cell, restricted to the
columns having at least one differing cell.  `df` is the frame `compare` is
called on, so its values appear under the `self` label of the result. -/
def DataFrame.compare (df other : DataFrame) :
    Except String (List (Int × List (String × Value × Value))) :=
  if df.cols = other.cols ∧ df.rows.map Prod.fst = other.rows.map Prod.fst then
    Except.ok ((df.rows.zip other.rows).filterMap
      (diffEntry df.cols.length df.cols (diffColIdxs df other)))
  else
    Except.error "Can only compare identically-labeled DataFrame objects"

/-- Payload built for one diff row by the Save Direct Edits handler:
`{'id': int(row_id)}` updated with `changes.dropna().xs('self', level=1)`,
i.e. the non-NaN values of the `self` (= original) side. -/
def payloadOfChanges (rid : Int) (changes : List (String × Value × Value)) :
    List (String × Value) :=
  ("id", Value.int rid) :: (changes.filter (fun c => !(c.2.1.isNa))).map (fun c => (c.1, c.2.1))

inductive SaveResult where
  | compareError : SaveResult
  | noChanges : SaveResult
  | updateCall : List (List (String × Value)) → SaveResult
deriving DecidableEq, Repr

/-- The Save Direct Edits handler (lines 159-204 of the Catalog Manager
page): compare the id-indexed original against the id-indexed edited frame;
a compare exception stops with an error and no write; an empty diff reports
"No changes to save"; otherwise one update payload per diff row is sent to
`update_rows`. -/
def saveDirectEdits (original edited : DataFrame) : SaveResult :=
  match original.compare edited with
  | .error _ => .compareError
  | .ok diff =>
    if diff.isEmpty then .noChanges
    else .updateCall (diff.map (fun d => payloadOfChanges d.1 d.2))

/-- Bulk "Apply Status Change": `[{'id': row_id, 'Status': new_status} for row_id in ids]`. -/
def bulkStatusUpdates (row_ids : List Int) (new_status : String) :
    List (List (String × Value)) :=
  row_ids.map (fun i => [("id", Value.int i), ("Status", Value.str new_status)])

/-- Bulk "Apply Panel Change": `[{'id': row_id, 'Panel': new_panel} for row_id in ids]`. -/
def bulkPanelUpdates (row_ids : List Int) (new_panel : String) :
    List (List (String × Value)) :=
  row_ids.map (fun i => [("id", Value.int i), ("Panel", Value.str new_panel)])

/-- Concrete frames for the spec scenario of claim C1: original has
`{id:1, Status:"Active"}`, both copies carry the editor's `_selected` flag. -/
def origC1 : DataFrame :=
  ⟨["_selected", "Status"], [(1, [Value.bool false, Value.str "Active"])]⟩

def editC1 : DataFrame :=
  ⟨["_selected", "Status"], [(1, [Value.bool false, Value.str "Deleted"])]⟩

/-- C1.  The claim expects the emitted Patch Request to carry the Working
copy's value `{id:1, Status:"Deleted"}`.  The code calls
`original_indexed.compare(edited_indexed)` and then extracts
`xs('self', level=1)`; in pandas `self` labels the frame `compare` was
called on — the original — so the payload actually emitted is
`{id:1, Status:"Active"}`: the old value, not the new one.  The code's own
comment ("We only care about the new values from 'self'") contradicts this
behaviour, so this is a bug in the code. -/
theorem claim_C1 :
    saveDirectEdits origC1 editC1 =
      SaveResult.updateCall [[("id", Value.int 1), ("Status", Value.str "Active")]] ∧
    saveDirectEdits origC1 editC1 ≠
      SaveResult.updateCall [[("id", Value.int 1), ("Status", Value.str "Deleted")]] := by
  constructor
  · rfl
  · decide

/-- Frames for claim C2: two rows; the working copy carries one real edit
(Status of id 1), once in the original row order and once in a permuted
(display-sorted) row order. -/
def origC2 : DataFrame :=
  ⟨["_selected", "Status"],
   [(1, [Value.bool false, Value.str "Active"]),
    (2, [Value.bool false, Value.str "Active"])]⟩

def editC2same : DataFrame :=
  ⟨["_selected", "Status"],
   [(1, [Value.bool false, Value.str "Deleted"]),
    (2, [Value.bool false, Value.str "Active"])]⟩

def editC2perm : DataFrame :=
  ⟨["_selected", "Status"],
   [(2, [Value.bool false, Value.str "Active"]),
    (1, [Value.bool false, Value.str "Deleted"])]⟩

/-- C2.  The claim says permuting the row order of either snapshot leaves
the diff succeeding with the same change sets.  In the code the frames are
indexed by id but never reordered, and `pandas.compare` raises on
identically-valued frames whose index order differs, so the permuted
working copy makes the save path fail where the same-order working copy
succeeds.  The code's own comment ("This aligns the rows perfectly,
regardless of display order") contradicts this, so this is a bug in the
code. -/
theorem claim_C2 :
    saveDirectEdits origC2 editC2same =
      SaveResult.updateCall [[("id", Value.int 1), ("Status", Value.str "Active")]] ∧
    saveDirectEdits origC2 editC2perm = SaveResult.compareError := by
  constructor
  · rfl
  · decide

theorem zip_self_eq {α : Type} (l : List α) : l.zip l = l.map (fun a => (a, a)) := by
  induction l with
  | nil => rfl
  | cons a t ih => simp [List.zip_cons_cons, ih]

theorem cellNe_self (a : Value) : cellNe a a = false := by
  simp [cellNe]

theorem rowNe_self (n : Nat) (r : Int × List Value) : rowNe n r r = false := by
  simp [rowNe, cellNe_self]

theorem compare_self_eq_nil (S : DataFrame) : S.compare S = Except.ok [] := by
  unfold DataFrame.compare
  rw [if_pos ⟨rfl, rfl⟩]
  rw [zip_self_eq, List.filterMap_map]
  have h : ∀ r ∈ S.rows,
      (diffEntry S.cols.length S.cols (diffColIdxs S S) ∘ fun a => (a, a)) r = none := by
    intro r _
    simp [diffEntry, rowNe_self]
  rw [List.filterMap_eq_nil_iff.mpr h]

/-- C6.  Diffing any snapshot against itself yields an empty change-set
sequence, and the save handler then reports "no changes" and performs no
store call. -/
theorem claim_C6 (S : DataFrame) :
    S.compare S = Except.ok [] ∧ saveDirectEdits S S = SaveResult.noChanges := by
  refine ⟨compare_self_eq_nil S, ?_⟩
  unfold saveDirectEdits
  rw [compare_self_eq_nil S]
  rfl

/-- C5.  When the row-id sets of the two snapshots diverge, the compare
step raises (the pandas identically-labeled exception), the handler stops
with an error, and no store write is performed. -/
theorem claim_C5 (o e : DataFrame)
    (h : (∃ i, i ∈ o.rows.map Prod.fst ∧ i ∉ e.rows.map Prod.fst) ∨
         (∃ i, i ∈ e.rows.map Prod.fst ∧ i ∉ o.rows.map Prod.fst)) :
    saveDirectEdits o e = SaveResult.compareError ∧
    ∀ ps, saveDirectEdits o e ≠ SaveResult.updateCall ps := by
  have hne : o.rows.map Prod.fst ≠ e.rows.map Prod.fst := by
    intro heq
    rcases h with ⟨i, hi, hni⟩ | ⟨i, hi, hni⟩
    · exact hni (heq ▸ hi)
    · exact hni (heq ▸ hi)
  have hcmp : o.compare e = Except.error "Can only compare identically-labeled DataFrame objects" := by
    unfold DataFrame.compare
    rw [if_neg]
    intro hand
    exact hne hand.2
  refine ⟨?_, ?_⟩
  · unfold saveDirectEdits
    rw [hcmp]
  · intro ps
    unfold saveDirectEdits
    rw [hcmp]
    intro hcon
    exact SaveResult.noConfusion hcon

def origC5 : DataFrame := ⟨["Status"], [(1, [Value.str "Active"])]⟩

def editC5 : DataFrame := ⟨["Status"], []⟩

theorem claim_C5_witness :
    saveDirectEdits origC5 editC5 = SaveResult.compareError :=
  (claim_C5 origC5 editC5 (Or.inl ⟨(1 : Int), by decide, by decide⟩)).1

theorem saveDirectEdits_updateCall (o e : DataFrame) (ps : List (List (String × Value)))
    (h : saveDirectEdits o e = SaveResult.updateCall ps) :
    ∃ diff, o.compare e = Except.ok diff ∧ diff ≠ [] ∧
      ps = diff.map (fun d => payloadOfChanges d.1 d.2) := by
  unfold saveDirectEdits at h
  cases hc : o.compare e with
  | error m => rw [hc] at h; simp at h
  | ok diff =>
    rw [hc] at h
    dsimp only [] at h
    by_cases hd : diff.isEmpty
    · rw [if_pos hd] at h; simp at h
    · rw [if_neg hd] at h
      refine ⟨diff, rfl, ?_, ?_⟩
      · intro hnil; exact hd (by simp [hnil])
      · exact (SaveResult.updateCall.inj h).symm

theorem compare_ok (o e : DataFrame) (diff : List (Int × List (String × Value × Value)))
    (h : o.compare e = Except.ok diff) :
    o.cols = e.cols ∧ o.rows.map Prod.fst = e.rows.map Prod.fst ∧
    diff = (o.rows.zip e.rows).filterMap
      (diffEntry o.cols.length o.cols (diffColIdxs o e)) := by
  unfold DataFrame.compare at h
  by_cases hc : o.cols = e.cols ∧ o.rows.map Prod.fst = e.rows.map Prod.fst
  · rw [if_pos hc] at h
    exact ⟨hc.1, hc.2, (Except.ok.inj h).symm⟩
  · rw [if_neg hc] at h
    simp at h

def emittedIds (ps : List (List (String × Value))) : List Value :=
  ps.map (fun p => (p.headD ("id", Value.na)).2)

/-- Frames for the C4 counterexample: store/fetch order puts id 2 before
id 1, and both rows carry a change. -/
def origC4 : DataFrame :=
  ⟨["Status"], [(2, [Value.str "Active"]), (1, [Value.str "Active"])]⟩

def editC4 : DataFrame :=
  ⟨["Status"], [(2, [Value.str "Deleted"]), (1, [Value.str "Deleted"])]⟩

/-- C4 (counterexample).  The claim says Patch Requests come out in
ascending id order regardless of snapshot row order.  With both snapshots
ordered id 2 before id 1, the handler emits the payload for id 2 first:
the emission order is the snapshot row order `[2, 1]`, not the ascending
order `[1, 2]`. -/
theorem claim_C4_counterexample :
    emittedIds
        (match saveDirectEdits origC4 editC4 with
          | SaveResult.updateCall ps => ps
          | _ => []) = [Value.int 2, Value.int 1] ∧
    [Value.int 2, Value.int 1] ≠ [Value.int 1, Value.int 2] := by
  decide

theorem diff_ids_sublist (n : Nat) (cols : List String) (djs : List Nat)
    (zs : List ((Int × List Value) × (Int × List Value))) :
    List.Sublist
      ((zs.filterMap (diffEntry n cols djs)).map (fun d => Value.int d.1))
      (zs.map (fun z => Value.int z.1.1)) := by
  induction zs with
  | nil => simp
  | cons z t ih =>
    rw [List.filterMap_cons]
    simp only [diffEntry]
    by_cases hz : rowNe n z.1 z.2
    · rw [if_pos hz]
      simp only [List.map_cons]
      exact List.Sublist.cons₂ _ ih
    · rw [if_neg hz]
      simp only [List.map_cons]
      exact List.Sublist.cons _ ih

/-- C4 (amended).  Change Sets (hence Patch Requests) are emitted in the
order the corresponding rows appear in the snapshots — the emitted id
sequence is a subsequence of the original snapshot's row-id sequence —
which is ascending only when the snapshot row order itself is. -/
theorem claim_C4 (o e : DataFrame) (ps : List (List (String × Value)))
    (h : saveDirectEdits o e = SaveResult.updateCall ps) :
    List.Sublist (emittedIds ps) (o.rows.map (fun r => Value.int r.1)) := by
  obtain ⟨diff, hcmp, -, hps⟩ := saveDirectEdits_updateCall o e ps h
  obtain ⟨-, hids, hdiff⟩ := compare_ok o e diff hcmp
  have hlen : o.rows.length ≤ e.rows.length := by
    have := congrArg List.length hids
    simp at this
    omega
  have h1 : emittedIds ps = diff.map (fun d => Value.int d.1) := by
    rw [hps]
    unfold emittedIds
    rw [List.map_map]
    rfl
  rw [h1, hdiff]
  have h2 : ((o.rows.zip e.rows).map (fun z => Value.int z.1.1)) =
      o.rows.map (fun r => Value.int r.1) := by
    have h3 : (o.rows.zip e.rows).map Prod.fst = o.rows := List.map_fst_zip _ _ hlen
    calc ((o.rows.zip e.rows).map (fun z => Value.int z.1.1))
        = ((o.rows.zip e.rows).map Prod.fst).map (fun r => Value.int r.1) := by
          rw [List.map_map]; rfl
      _ = o.rows.map (fun r => Value.int r.1) := by rw [h3]
  rw [← h2]
  exact diff_ids_sublist _ _ _ _

theorem claim_C4_witness :
    List.Sublist (emittedIds [[("id", Value.int 1), ("Status", Value.str "Active")]])
      (origC1.rows.map (fun r => Value.int r.1)) :=
  claim_C4 origC1 editC1 _ (by decide)

/-- C7.  The editor-local `_selected` flag never reaches the store.  On the
save path the hypothesis records what the page guarantees there: the
original copy gets `_selected = False` on every row at load, and the save
branch only runs when no working-copy row is selected, so every `_selected`
cell is `False` on both sides; the column then never differs, so it never
enters the diff nor any payload.  The bulk-action payloads carry only `id`
plus `Status` (resp. `Panel`) and the delete call carries bare ids, so none
of them can mention `_selected` either. -/
theorem claim_C7 (o e : DataFrame)
    (h : ∀ j, j < o.cols.length → o.cols.getD j "" = "_selected" →
        (∀ r ∈ o.rows, r.2.getD j Value.na = Value.bool false) ∧
        (∀ r ∈ e.rows, r.2.getD j Value.na = Value.bool false)) :
    (∀ ps, saveDirectEdits o e = SaveResult.updateCall ps →
       ∀ p ∈ ps, ∀ kv ∈ p, kv.1 ≠ "_selected") ∧
    (∀ ids s, ∀ p ∈ bulkStatusUpdates ids s, ∀ kv ∈ p, kv.1 ≠ "_selected") ∧
    (∀ ids s, ∀ p ∈ bulkPanelUpdates ids s, ∀ kv ∈ p, kv.1 ≠ "_selected") := by
  refine ⟨?_, ?_, ?_⟩
  · intro ps hsave p hp kv hkv
    obtain ⟨diff, hcmp, -, hps⟩ := saveDirectEdits_updateCall o e ps hsave
    obtain ⟨-, -, hdiff⟩ := compare_ok o e diff hcmp
    subst hps
    obtain ⟨d, hd, rfl⟩ := List.mem_map.mp hp
    rcases List.mem_cons.mp hkv with rfl | hkv2
    · simp
    · obtain ⟨c, hc, rfl⟩ := List.mem_map.mp hkv2
      have hcmem : c ∈ d.2 := List.mem_of_mem_filter hc
      subst hdiff
      obtain ⟨pr, hpr, hde⟩ := List.mem_filterMap.mp hd
      unfold diffEntry at hde
      by_cases hrow : rowNe o.cols.length pr.1 pr.2
      · rw [if_pos hrow] at hde
        obtain ⟨heq1, heq2⟩ := Prod.mk.inj (Option.some.inj hde)
        rw [← heq2] at hcmem
        obtain ⟨j, hj, rfl⟩ := List.mem_map.mp hcmem
        have hj2 := List.mem_filter.mp hj
        have hjlt : j < o.cols.length := List.mem_range.mp hj2.1
        intro hbad
        have hlabel : o.cols.getD j "" = "_selected" := by
          simpa [diffCell] using hbad
        obtain ⟨ho, he⟩ := h j hjlt hlabel
        obtain ⟨pr2, hpr2, hcell⟩ := List.any_eq_true.mp hj2.2
        obtain ⟨a2, b2⟩ := pr2
        obtain ⟨ha2, hb2⟩ := List.of_mem_zip hpr2
        rw [ho a2 ha2, he b2 hb2] at hcell
        simp [cellNe] at hcell
      · rw [if_neg hrow] at hde
        exact Option.noConfusion hde
  · intro ids s p hp kv hkv
    obtain ⟨i, -, rfl⟩ := List.mem_map.mp hp
    rcases List.mem_cons.mp hkv with rfl | hkv2
    · simp
    · rcases List.mem_cons.mp hkv2 with rfl | hkv3
      · simp
      · exact absurd hkv3 (List.not_mem_nil _)
  · intro ids s p hp kv hkv
    obtain ⟨i, -, rfl⟩ := List.mem_map.mp hp
    rcases List.mem_cons.mp hkv with rfl | hkv2
    · simp
    · rcases List.mem_cons.mp hkv2 with rfl | hkv3
      · simp
      · exact absurd hkv3 (List.not_mem_nil _)

theorem claim_C7_witness :
    (∀ ps, saveDirectEdits origC1 editC1 = SaveResult.updateCall ps →
       ∀ p ∈ ps, ∀ kv ∈ p, kv.1 ≠ "_selected") ∧
    (∀ ids s, ∀ p ∈ bulkStatusUpdates ids s, ∀ kv ∈ p, kv.1 ≠ "_selected") ∧
    (∀ ids s, ∀ p ∈ bulkPanelUpdates ids s, ∀ kv ∈ p, kv.1 ≠ "_selected") :=
  claim_C7 origC1 editC1 (by decide)

/-- One page of the paginated Baserow row endpoint, as seen by
`_get_all_rows`: either a transport/HTTP error (the raised
`RequestException`) or the page's `results` list together with whether the
response's `next` field is non-null. -/
abbrev StorePage (α : Type) := Except Unit (List α × Bool)

/-- The `while True` loop of `BaserowConnector._get_all_rows`: extend the
accumulator with the page's results, stop when `next` is null or the page
is empty, re-raise any request error (discarding everything fetched so
far). The page list holds the successive responses of the store; an
exhausted list behaves like an empty page. -/
def getAllRowsGo {α : Type} : List (StorePage α) → List α → Except Unit (List α)
  | [], acc => Except.ok acc
  | p :: rest, acc =>
    match p with
    | .error e => .error e
    | .ok (results, hasNext) =>
      let acc2 := acc ++ results
      if !hasNext || results.isEmpty then .ok acc2 else getAllRowsGo rest acc2

def getAllRows {α : Type} (pages : List (StorePage α)) : Except Unit (List α) :=
  getAllRowsGo pages []

/-- A 3-page store with page sizes 200/200/47, rows numbered in store order. -/
def store3 : List (StorePage Nat) :=
  [Except.ok (List.range' 0 200, true),
   Except.ok (List.range' 200 200, true),
   Except.ok (List.range' 400 47, false)]

/-- The same store failing with a transport error on page 2. -/
def storeFail2 : List (StorePage Nat) :=
  [Except.ok (List.range' 0 200, true), Except.error ()]

theorem getAllRowsGo_error {α : Type} (post : List (StorePage α)) :
    ∀ (pre : List (StorePage α)) (acc : List α),
      (∀ p ∈ pre, ∃ res, p = Except.ok (res, true) ∧ res ≠ []) →
      getAllRowsGo (pre ++ Except.error () :: post) acc = Except.error () := by
  intro pre
  induction pre with
  | nil => intro acc h; rfl
  | cons p t ih =>
    intro acc h
    obtain ⟨res, rfl, hres⟩ := h p (List.mem_cons_self _ _)
    have hres2 : res.isEmpty = false := by
      cases res with
      | nil => exact absurd rfl hres
      | cons a b => rfl
    simp only [List.cons_append, getAllRowsGo, Bool.not_true, Bool.false_or, hres2,
      if_false, Bool.false_eq_true]
    exact ih _ (fun q hq => h q (List.mem_cons_of_mem _ hq))

/-- A raw cell as delivered by the Baserow JSON before flattening: a plain
scalar, a dict carrying a `value` key (single-select / linked-row object), a
dict without a `value` key, or a list of cells (link fields). -/
inductive RawCell where
  | scalar : Value → RawCell
  | dictVal : Value → RawCell
  | dictNoVal : RawCell
  | listOf : List RawCell → RawCell

/-- `isinstance(x, dict) and 'value' in x`. -/
def RawCell.isDictVal : RawCell → Bool
  | .dictVal _ => true
  | _ => false

/-- `isinstance(x, list) and x and isinstance(x[0], dict) and 'value' in x[0]`. -/
def RawCell.headIsDictVal : RawCell → Bool
  | .listOf (c :: _) => c.isDictVal
  | _ => false

/-- `x['value'] if isinstance(x, dict) and 'value' in x else x`. -/
def flattenCell1 : RawCell → RawCell
  | .dictVal v => .scalar v
  | c => c

/-- `[item['value'] for item in x if isinstance(item, dict) and 'value' in item]
if isinstance(x, list) else x`. -/
def flattenCell2 : RawCell → RawCell
  | .listOf items => .listOf (items.filterMap (fun i =>
      match i with
      | .dictVal v => some (RawCell.scalar v)
      | _ => none))
  | c => c

/-- Which of the two column-wise rewrites of `get_table_as_dataframe`
applies to column `j`: 1 if some cell of the column is a dict with a
`value` key, else 2 if some cell is a non-empty list headed by such a dict,
else 0 (column untouched).  A row missing the column contributes pandas
NaN, modelled as `scalar Value.na`. -/
def colMode (rows : List (List RawCell)) (j : Nat) : Nat :=
  if rows.any (fun r => (r.getD j (RawCell.scalar Value.na)).isDictVal) then 1
  else if rows.any (fun r => (r.getD j (RawCell.scalar Value.na)).headIsDictVal) then 2
  else 0

/-- The column-wise flattening loop of `get_table_as_dataframe` over a
frame of `ncols` columns. -/
def flattenFrame (rows : List (List RawCell)) (ncols : Nat) : List (List RawCell) :=
  rows.map (fun r => (List.range ncols).map (fun j =>
    match colMode rows j with
    | 1 => flattenCell1 (r.getD j (RawCell.scalar Value.na))
    | 2 => flattenCell2 (r.getD j (RawCell.scalar Value.na))
    | _ => r.getD j (RawCell.scalar Value.na)))

/-- `BaserowConnector.get_table_as_dataframe` — the caller-facing fetchAll
boundary: run the page loop; the `except Exception` branch returns
`pd.DataFrame()` (an empty frame) for any raised error; an empty row list
also returns an empty frame; otherwise the compound cells are flattened
column-wise. -/
def get_table_as_dataframe (pages : List (StorePage (List RawCell))) (ncols : Nat) :
    List (List RawCell) :=
  match getAllRows pages with
  | .error _ => []
  | .ok rows => if rows.isEmpty then [] else flattenFrame rows ncols

/-- The 3-page store (200/200/47) with one scalar column, rows numbered in
store order. -/
def store3R : List (StorePage (List RawCell)) :=
  [Except.ok ((List.range' 0 200).map (fun k => [RawCell.scalar (Value.int (Int.ofNat k))]), true),
   Except.ok ((List.range' 200 200).map (fun k => [RawCell.scalar (Value.int (Int.ofNat k))]), true),
   Except.ok ((List.range' 400 47).map (fun k => [RawCell.scalar (Value.int (Int.ofNat k))]), false)]

def rows447R : List (List RawCell) :=
  (List.range 447).map (fun k => [RawCell.scalar (Value.int (Int.ofNat k))])

/-- The same store failing with a transport error on page 2. -/
def storeFail2R : List (StorePage (List RawCell)) :=
  [Except.ok ((List.range' 0 200).map (fun k => [RawCell.scalar (Value.int (Int.ofNat k))]), true),
   Except.error ()]

/-- A store whose table is empty: one page with no results and no next. -/
def storeEmptyTable : List (StorePage (List RawCell)) :=
  [Except.ok ([], false)]

/-- A one-page store exercising the compound-value flattening: the first
row's cell is a `{'value': …}` dict. -/
def storeFlat : List (StorePage (List RawCell)) :=
  [Except.ok ([[RawCell.dictVal (Value.str "A")], [RawCell.scalar (Value.str "B")]], false)]

/-- C3 (counterexample).  The claim says a transport failure on page 2
yields `StoreUnavailable` and is distinguishable from an empty table.  At
the caller-facing fetchAll boundary, `get_table_as_dataframe` catches the
error raised by the page loop and returns an empty frame — the very value
it returns for an empty table — so the failure surfaces as no error at all
and cannot be told apart from an empty table there. -/
theorem claim_C3_counterexample :
    get_table_as_dataframe storeFail2R 1 = [] ∧
    get_table_as_dataframe storeEmptyTable 1 = [] ∧
    get_table_as_dataframe storeFail2R 1 = get_table_as_dataframe storeEmptyTable 1 := by
  refine ⟨rfl, rfl, rfl⟩

theorem getD_range_map {α : Type} (d : α) (r : List α) :
    (List.range r.length).map (fun j => r.getD j d) = r := by
  induction r with
  | nil => rfl
  | cons a t ih =>
    show (List.range (t.length + 1)).map _ = _
    rw [List.range_succ_eq_map, List.map_cons, List.map_map]
    have hf : ((fun j => (a :: t).getD j d) ∘ Nat.succ) = (fun j => t.getD j d) := by
      funext j
      rfl
    rw [hf, ih]
    rfl

theorem getD_scalar (r : List RawCell) (h : ∀ c ∈ r, ∃ v, c = RawCell.scalar v) :
    ∀ j : Nat, ∃ v, r.getD j (RawCell.scalar Value.na) = RawCell.scalar v := by
  induction r with
  | nil => intro j; exact ⟨Value.na, rfl⟩
  | cons a t ih =>
    intro j
    cases j with
    | zero => exact h a (List.mem_cons_self _ _)
    | succ n => exact ih (fun c hc => h c (List.mem_cons_of_mem _ hc)) n

theorem colMode_scalar (rows : List (List RawCell))
    (h : ∀ r ∈ rows, ∀ c ∈ r, ∃ v, c = RawCell.scalar v) (j : Nat) :
    colMode rows j = 0 := by
  have h1 : rows.any (fun r => (r.getD j (RawCell.scalar Value.na)).isDictVal) = false := by
    rw [List.any_eq_false]
    intro r hr
    obtain ⟨v, hv⟩ := getD_scalar r (h r hr) j
    rw [hv]
    simp [RawCell.isDictVal]
  have h2 : rows.any (fun r => (r.getD j (RawCell.scalar Value.na)).headIsDictVal) = false := by
    rw [List.any_eq_false]
    intro r hr
    obtain ⟨v, hv⟩ := getD_scalar r (h r hr) j
    rw [hv]
    simp [RawCell.headIsDictVal]
  unfold colMode
  simp only [h1, h2]
  rfl

theorem flattenFrame_scalar (rows : List (List RawCell)) (ncols : Nat)
    (h : ∀ r ∈ rows, r.length = ncols ∧ ∀ c ∈ r, ∃ v, c = RawCell.scalar v) :
    flattenFrame rows ncols = rows := by
  unfold flattenFrame
  have hrow : ∀ r ∈ rows, ((List.range ncols).map (fun j =>
      match colMode rows j with
      | 1 => flattenCell1 (r.getD j (RawCell.scalar Value.na))
      | 2 => flattenCell2 (r.getD j (RawCell.scalar Value.na))
      | _ => r.getD j (RawCell.scalar Value.na))) = id r := by
    intro r hr
    obtain ⟨hlen, hcells⟩ := h r hr
    have hfun : (fun j => (match colMode rows j with
        | 1 => flattenCell1 (r.getD j (RawCell.scalar Value.na))
        | 2 => flattenCell2 (r.getD j (RawCell.scalar Value.na))
        | _ => r.getD j (RawCell.scalar Value.na))) =
        (fun j => r.getD j (RawCell.scalar Value.na)) := by
      funext j
      rw [colMode_scalar rows (fun r2 hr2 => (h r2 hr2).2) j]
    rw [hfun]
    show (List.range ncols).map _ = r
    rw [← hlen]
    exact getD_range_map _ r
  rw [List.map_congr_left hrow, List.map_id]

/-- C3 (amended).  The page loop `_get_all_rows` is all-or-nothing: the
3-page store (200/200/47) yields the 447 rows in store order, and a
transport error on any page (after any run of successful non-final pages)
re-raises, discarding everything fetched so far — at that level a failure
is an exception, not a value.  The caller-facing fetchAll boundary
`get_table_as_dataframe` (which also flattens compound cells, shown here
unwrapping a `{'value': …}` dict) passes the 447 rows through in store
order, but catches the raised page error and returns an empty frame, the
same value it returns for an empty table: no partial snapshot is ever
returned, yet at that boundary the failure is not `StoreUnavailable` and is
not distinguishable from an empty table. -/
theorem claim_C3 :
    getAllRows store3 = Except.ok (List.range 447) ∧
    getAllRows storeFail2 = Except.error () ∧
    (∀ (pre post : List (StorePage Nat)),
      (∀ p ∈ pre, ∃ res, p = Except.ok (res, true) ∧ res ≠ []) →
      getAllRows (pre ++ Except.error () :: post) = Except.error ()) ∧
    get_table_as_dataframe store3R 1 = rows447R ∧
    get_table_as_dataframe storeFlat 1 =
      [[RawCell.scalar (Value.str "A")], [RawCell.scalar (Value.str "B")]] ∧
    get_table_as_dataframe storeFail2R 1 = [] ∧
    get_table_as_dataframe storeEmptyTable 1 = [] := by
  refine ⟨rfl, rfl, ?_, ?_, rfl, rfl, rfl⟩
  · intro pre post h
    exact getAllRowsGo_error post pre [] h
  · show get_table_as_dataframe store3R 1 = rows447R
    have hrows : getAllRows store3R = Except.ok rows447R := rfl
    unfold get_table_as_dataframe
    rw [hrows]
    have hne : rows447R.isEmpty = false := rfl
    simp only [hne, Bool.false_eq_true, if_false]
    refine flattenFrame_scalar rows447R 1 ?_
    intro r hr
    obtain ⟨k, -, rfl⟩ := List.mem_map.mp hr
    refine ⟨rfl, ?_⟩
    intro c hc
    rw [List.mem_singleton] at hc
    subst hc
    exact ⟨Value.int (Int.ofNat k), rfl⟩

theorem claim_C3_witness :
    getAllRows ([Except.ok ([0], true)] ++ Except.error () :: ([] : List (StorePage Nat))) =
      Except.error () := by
  refine claim_C3.2.2.1 [Except.ok ([0], true)] [] ?_
  intro p hp
  rw [List.mem_singleton] at hp
  subst hp
  exact ⟨[0], rfl, by decide⟩

/-- Batch-index loop of `BaserowConnector.delete_rows`: Python's
`for i in range(0, len(valid_row_ids), batch_size)` with
`chunk_of_ids = valid_row_ids[i:i + batch_size]`.  `respond` tells whether
the store accepts a given batch POST; the result is the overall success
flag together with the batch requests actually issued, in order (issued
batches are never rolled back; the loop breaks at the first failure). -/
def deleteGo (respond : List Int → Bool) (valid : List Int) : List Nat → Bool × List (List Int)
  | [] => (true, [])
  | k :: ks =>
    let chunk := (valid.drop (200 * k)).take 200
    if respond chunk then
      let r := deleteGo respond valid ks
      (r.1, chunk :: r.2)
    else (false, [chunk])

/-- Python's `[int(rid) for rid in row_ids]` inside `try/except`: the whole
coercion fails (`none`) as soon as one element is not coercible. -/
def pyIntList : List Value → Option (List Int)
  | [] => some []
  | v :: vs =>
    match pyInt v with
    | none => none
    | some n =>
      match pyIntList vs with
      | none => none
      | some ns => some (n :: ns)

/-- `BaserowConnector.delete_rows`: success with no request on an empty id
list; failure with no request when some id is not coercible to `int`;
otherwise the 200-sized batch loop. -/
def delete_rows (respond : List Int → Bool) (row_ids : List Value) : Bool × List (List Int) :=
  if row_ids.isEmpty then (true, [])
  else
    match pyIntList row_ids with
    | none => (false, [])
    | some valid => deleteGo respond valid (List.range ((valid.length + 199) / 200))

/-- Fuel-indexed chunking of a list into runs of 200 (the fuel only serves
termination; `chunks200` instantiates it with the list length, which always
suffices). -/
def chunksF : Nat → List Int → List (List Int)
  | _, [] => []
  | 0, l => [l]
  | fuel + 1, l => l.take 200 :: chunksF fuel (l.drop 200)

/-- The spec's reading of `deleteRows` batching: split the id list into
fixed-size batches of 200, in order. -/
def chunks200 (l : List Int) : List (List Int) :=
  chunksF l.length l

/-- The spec's reading of the submission loop: submit batches in order,
stop at the first failing batch, report overall failure, keep the batches
already submitted. -/
def batchOutcome (respond : List Int → Bool) : List (List Int) → Bool × List (List Int)
  | [] => (true, [])
  | b :: bs =>
    if respond b then
      let r := batchOutcome respond bs
      (r.1, b :: r.2)
    else (false, [b])

theorem chunksF_irrel (fuel1 : Nat) :
    ∀ (fuel2 : Nat) (l : List Int), l.length ≤ fuel1 → l.length ≤ fuel2 →
      chunksF fuel1 l = chunksF fuel2 l := by
  induction fuel1 with
  | zero =>
    intro fuel2 l h1 h2
    have : l = [] := List.length_eq_zero.mp (Nat.le_zero.mp h1)
    subst this
    cases fuel2 <;> rfl
  | succ f ih =>
    intro fuel2 l h1 h2
    cases l with
    | nil => cases fuel2 <;> rfl
    | cons a t =>
      cases fuel2 with
      | zero => simp at h2
      | succ f2 =>
        show (a :: t).take 200 :: chunksF f ((a :: t).drop 200) =
          (a :: t).take 200 :: chunksF f2 ((a :: t).drop 200)
        have hlen : ((a :: t).drop 200).length ≤ f := by
          rw [List.length_drop]
          simp only [List.length_cons] at h1 ⊢
          omega
        have hlen2 : ((a :: t).drop 200).length ≤ f2 := by
          rw [List.length_drop]
          simp only [List.length_cons] at h2 ⊢
          omega
        rw [ih f2 _ hlen hlen2]

theorem chunks200_cons (l : List Int) (hl : l ≠ []) :
    chunks200 l = l.take 200 :: chunks200 (l.drop 200) := by
  cases l with
  | nil => exact absurd rfl hl
  | cons a t =>
    have h1 : chunks200 (a :: t) =
        (a :: t).take 200 :: chunksF t.length ((a :: t).drop 200) := rfl
    rw [h1]
    congr 1
    exact chunksF_irrel t.length ((a :: t).drop 200).length _
      (by rw [List.length_drop]; simp only [List.length_cons]; omega) (Nat.le_refl _)

theorem chunksF_flatten (fuel : Nat) :
    ∀ (l : List Int), l.length ≤ fuel → (chunksF fuel l).flatten = l := by
  induction fuel with
  | zero =>
    intro l h1
    have : l = [] := List.length_eq_zero.mp (Nat.le_zero.mp h1)
    subst this
    rfl
  | succ f ih =>
    intro l h1
    cases l with
    | nil => rfl
    | cons a t =>
      show ((a :: t).take 200 :: chunksF f ((a :: t).drop 200)).flatten = _
      rw [List.flatten_cons]
      rw [ih _ (by rw [List.length_drop]; simp only [List.length_cons] at h1 ⊢; omega)]
      exact List.take_append_drop _ _

theorem chunksF_mem (fuel : Nat) :
    ∀ (l : List Int) (c : List Int), l.length ≤ fuel → c ∈ chunksF fuel l →
      c ≠ [] ∧ c.length ≤ 200 := by
  induction fuel with
  | zero =>
    intro l c h1 hc
    have : l = [] := List.length_eq_zero.mp (Nat.le_zero.mp h1)
    subst this
    simp [chunksF] at hc
  | succ f ih =>
    intro l c h1 hc
    cases l with
    | nil => simp [chunksF] at hc
    | cons a t =>
      have hc2 : c ∈ (a :: t).take 200 :: chunksF f ((a :: t).drop 200) := hc
      rcases List.mem_cons.mp hc2 with rfl | hc3
      · constructor
        · simp
        · rw [List.length_take]
          omega
      · exact ih _ c (by rw [List.length_drop]; simp only [List.length_cons] at h1 ⊢; omega) hc3

theorem deleteGo_eq (respond : List Int → Bool) (valid : List Int) (m : Nat) :
    ∀ (k : Nat), m = ((valid.drop (200 * k)).length + 199) / 200 →
      deleteGo respond valid (List.range' k m) =
        batchOutcome respond (chunks200 (valid.drop (200 * k))) := by
  induction m with
  | zero =>
    intro k hm
    have hlen : (valid.drop (200 * k)).length = 0 := by omega
    have hnil : valid.drop (200 * k) = [] := List.length_eq_zero.mp hlen
    rw [hnil]
    rfl
  | succ m ih =>
    intro k hm
    have hlen : (valid.drop (200 * k)).length ≥ 1 := by omega
    have hnil : valid.drop (200 * k) ≠ [] := by
      intro hc
      rw [hc] at hlen
      simp at hlen
    rw [List.range'_succ]
    show (if respond ((valid.drop (200 * k)).take 200) then
        let r := deleteGo respond valid (List.range' (k + 1) m)
        (r.1, (valid.drop (200 * k)).take 200 :: r.2)
      else (false, [(valid.drop (200 * k)).take 200])) = _
    rw [chunks200_cons _ hnil]
    have hdrop : valid.drop (200 * (k + 1)) = (valid.drop (200 * k)).drop 200 := by
      have h2 : 200 * (k + 1) = 200 * k + 200 := by ring
      rw [List.drop_drop, h2]
    have harith : m = ((valid.drop (200 * (k + 1))).length + 199) / 200 := by
      rw [hdrop, List.length_drop]
      omega
    rw [ih (k + 1) harith, hdrop]
    by_cases hr : respond ((valid.drop (200 * k)).take 200)
    · rw [if_pos hr]
      show _ = (if respond ((valid.drop (200 * k)).take 200) then _ else _)
      rw [if_pos hr]
    · rw [if_neg hr]
      show _ = (if respond ((valid.drop (200 * k)).take 200) then _ else _)
      rw [if_neg hr]

theorem pyIntList_int (ids : List Int) : pyIntList (ids.map Value.int) = some ids := by
  induction ids with
  | nil => rfl
  | cons a t ih => simp [pyIntList, pyInt, ih]

/-- C9.  `delete_rows` on a list of integer ids splits it into fixed-size
batches of 200 (each issued batch is non-empty, at most 200 long, and the
batches concatenate back to the id list in order), submits the batches in
order, stops at the first failing batch reporting overall failure, and
keeps (does not roll back) the batches already submitted before the
failure — exactly the behaviour of the specification-side
`batchOutcome` over `chunks200`. -/
theorem claim_C9 (respond : List Int → Bool) (ids : List Int) :
    (chunks200 ids).flatten = ids ∧
    (∀ c ∈ chunks200 ids, c ≠ [] ∧ c.length ≤ 200) ∧
    delete_rows respond (ids.map Value.int) = batchOutcome respond (chunks200 ids) := by
  refine ⟨chunksF_flatten _ _ (Nat.le_refl _),
    fun c hc => chunksF_mem _ _ c (Nat.le_refl _) hc, ?_⟩
  cases ids with
  | nil => rfl
  | cons a t =>
    unfold delete_rows
    rw [if_neg (by simp)]
    rw [pyIntList_int]
    show deleteGo respond (a :: t) (List.range (((a :: t).length + 199) / 200)) = _
    rw [List.range_eq_range']
    have h0 : (a :: t).drop (200 * 0) = a :: t := by simp
    have h1 := deleteGo_eq respond (a :: t) (((a :: t).length + 199) / 200) 0 (by rw [h0])
    rw [h0] at h1
    exact h1

theorem claim_C9_witness :
    (chunks200 [1, 2, 3]).flatten = [1, 2, 3] ∧
    (([1, 2, 3] : List Int) ≠ [] ∧ ([1, 2, 3] : List Int).length ≤ 200) ∧
    delete_rows (fun _ => true) ([1, 2, 3].map Value.int) =
      batchOutcome (fun _ => true) (chunks200 [1, 2, 3]) := by
  have h := claim_C9 (fun _ => true) [1, 2, 3]
  exact ⟨h.1, h.2.1 [1, 2, 3] (by decide), h.2.2⟩

/-- C10.  `delete_rows` with an empty id list succeeds without issuing any
request, and with an id list containing a value not coercible to `int` it
fails before issuing any request (the issued-request list is empty in both
cases, so no partial deletion can occur). -/
theorem claim_C10 (respond : List Int → Bool) (vs : List Value)
    (h : pyIntList vs = none) :
    delete_rows respond [] = (true, []) ∧ delete_rows respond vs = (false, []) := by
  refine ⟨rfl, ?_⟩
  cases vs with
  | nil => exact Option.noConfusion h
  | cons a t =>
    unfold delete_rows
    rw [if_neg (by simp)]
    rw [h]

theorem claim_C10_witness :
    delete_rows (fun _ => true) [] = (true, []) ∧
    delete_rows (fun _ => true) [Value.na] = (false, []) :=
  claim_C10 (fun _ => true) [Value.na] rfl

/-- State held by the Catalog Manager page around bulk deletion: the row
ids of the current checkbox selection and the `confirming_delete` session
flag. -/
structure CoordState where
  selectedIds : List Int
  confirmingDelete : Bool
deriving DecidableEq, Repr

inductive CoordEvent where
  | select (ids : List Int)
  | deleteIntent
  | confirm
  | cancel
  | forceRefresh
deriving DecidableEq, Repr

inductive StoreAction where
  | deleteCall (ids : List Int)
deriving DecidableEq, Repr

/-- One step of the guarded-deletion flow (Catalog Manager lines 139-151
together with `initialize_state`): the Delete button (only rendered for a
non-empty selection) sets `confirming_delete`; the confirm button (only
rendered while `confirming_delete` is set) issues exactly one
`delete_rows` call with the selected ids and then forces a refresh, which
clears the selection and pops `confirming_delete`; the cancel button just
clears the flag; a forced refresh from any path rebuilds the editor state
(all `_selected` cleared) and pops `confirming_delete`. -/
def coordStep (s : CoordState) (e : CoordEvent) : CoordState × List StoreAction :=
  match e with
  | .select ids => (⟨ids, s.confirmingDelete⟩, [])
  | .deleteIntent =>
    if s.selectedIds.isEmpty then (s, []) else (⟨s.selectedIds, true⟩, [])
  | .confirm =>
    if s.confirmingDelete then (⟨[], false⟩, [.deleteCall s.selectedIds]) else (s, [])
  | .cancel =>
    if s.confirmingDelete then (⟨s.selectedIds, false⟩, []) else (s, [])
  | .forceRefresh => (⟨[], false⟩, [])

/-- C8.  The guarded-deletion state machine on the selection `{5, 7}`:
delete intent moves Idle to PendingConfirm without touching the store;
cancel returns to Idle with no store call; confirm issues exactly one
delete call carrying exactly the captured ids `[5, 7]` and resets the
state; a forced refresh — from any state — clears the pending confirmation
and issues no call, and once the flag is cleared a confirm event is a
no-op, so no further delete can happen before a fresh intent. -/
theorem claim_C8 :
    coordStep ⟨[5, 7], false⟩ CoordEvent.deleteIntent = (⟨[5, 7], true⟩, []) ∧
    coordStep ⟨[5, 7], true⟩ CoordEvent.cancel = (⟨[5, 7], false⟩, []) ∧
    coordStep ⟨[5, 7], true⟩ CoordEvent.confirm =
      (⟨[], false⟩, [StoreAction.deleteCall [5, 7]]) ∧
    coordStep ⟨[5, 7], true⟩ CoordEvent.forceRefresh = (⟨[], false⟩, []) ∧
    (∀ s : CoordState, ((coordStep s CoordEvent.forceRefresh).1).confirmingDelete = false) ∧
    (∀ s : CoordState, (coordStep s CoordEvent.forceRefresh).2 = []) ∧
    (∀ ids : List Int, coordStep ⟨ids, false⟩ CoordEvent.confirm = (⟨ids, false⟩, [])) :=
  ⟨rfl, rfl, rfl, rfl, fun _ => rfl, fun _ => rfl, fun _ => rfl⟩
